import Mathlib

/-!
Verification of the godwoken block-producer core: a shallow embedding of
`crates/block-producer/src/main.rs` (custodian-cell derivation, transaction
assembly, block production) and `crates/mem-pool/src/sync/subscribe.rs`
(mem-pool sync consumer), with theorems about the embedded operations.

Byte strings are `List Nat`; machine integers are `Nat` with explicit
truncation where the code's width matters.  Components of the repository
that are only declared here (the molecule serialization layer, the
`TransactionSkeleton` accumulator, `fill_tx_fee`, the wallet and collector)
are modelled from the spec and marked as such in their doc comments.
-/

set_option autoImplicit false

namespace Godwoken

abbrev Bytes := List Nat

/-- Little-endian encoding of `n % 256 ^ w` on `w` bytes (molecule packs
numbers little-endian). -/
def natLE : Nat → Nat → Bytes
  | 0, _ => []
  | w + 1, n => n % 256 :: natLE w (n / 256)

/-- Read back a little-endian byte string as a number. -/
def natFromLE : Bytes → Nat
  | [] => 0
  | b :: bs => b + 256 * natFromLE bs

theorem natLE_length (w n : Nat) : (natLE w n).length = w := by
  induction w generalizing n with
  | zero => rfl
  | succ w ih => simp [natLE, ih]

theorem natFromLE_natLE (w n : Nat) (h : n < 256 ^ w) :
    natFromLE (natLE w n) = n := by
  induction w generalizing n with
  | zero =>
    have : n = 0 := Nat.lt_one_iff.mp (by simpa using h)
    simp [this, natLE, natFromLE]
  | succ w ih =>
    have hdiv : n / 256 < 256 ^ w := by
      rw [Nat.div_lt_iff_lt_mul (by norm_num)]
      calc n < 256 ^ (w + 1) := h
        _ = 256 ^ w * 256 := by rw [Nat.pow_succ]
    simp [natLE, natFromLE, ih _ hdiv, Nat.mod_add_div]

/-! ## Base-chain data model (`gw_types::packed`) -/

/-- An out-point: a reference to a live cell on the base chain. -/
structure OutPoint where
  tx_hash : Bytes
  index : Nat
deriving DecidableEq

/-- A CKB script: code hash, hash type and args. -/
structure Script where
  code_hash : Bytes
  hash_type : Nat
  args : Bytes
deriving DecidableEq

/-- `ScriptHashType::Data` -/
def scriptHashTypeData : Nat := 0

/-- `ScriptHashType::Type` -/
def scriptHashTypeType : Nat := 1

/-- A cell output: capacity plus lock and (optional) type script. -/
structure CellOutput where
  capacity : Nat
  lock : Script
  type_ : Option Script
deriving DecidableEq

/-- A cell dependency of a transaction. -/
structure CellDep where
  out_point : OutPoint
  dep_type : Nat
deriving DecidableEq

/-- A transaction input: the out-point it spends. -/
structure CellInput where
  previous_output : OutPoint
deriving DecidableEq

/-- Witness args with the three optional byte fields of the CKB type. -/
structure WitnessArgs where
  lock : Option Bytes
  input_type : Option Bytes
  output_type : Option Bytes
deriving DecidableEq

/-- `CustodianLockArgs`: the custodian lock's parameters. -/
structure CustodianLockArgs where
  deposition_block_hash : Bytes
  deposition_block_number : Nat
  deposition_lock_args : Bytes
deriving DecidableEq

/-- Modelled from the spec: the molecule serialization of `CustodianLockArgs`
(the generated serializer is not part of these sources).  The 32-byte block
hash, the 8-byte little-endian block number, then the original deposit lock
args. -/
def custodianLockArgsAsBytes (a : CustodianLockArgs) : Bytes :=
  a.deposition_block_hash ++ natLE 8 a.deposition_block_number ++ a.deposition_lock_args

/-- Modelled from the spec: decoding of a serialized `CustodianLockArgs`. -/
def decodeCustodianLockArgs (bs : Bytes) : Option CustodianLockArgs :=
  if bs.length < 40 then none
  else
    some
      { deposition_block_hash := bs.take 32
        deposition_block_number := natFromLE ((bs.drop 32).take 8)
        deposition_lock_args := bs.drop 40 }

theorem decode_custodianLockArgs_roundtrip (a : CustodianLockArgs)
    (h32 : a.deposition_block_hash.length = 32)
    (h64 : a.deposition_block_number < 2 ^ 64) :
    decodeCustodianLockArgs (custodianLockArgsAsBytes a) = some a := by
  obtain ⟨h, n, args⟩ := a
  simp only at h32 h64
  have hlen : (natLE 8 n).length = 8 := natLE_length 8 n
  have hfull : (h ++ natLE 8 n ++ args).length = 40 + args.length := by
    simp [h32, hlen]; omega
  have htake : (h ++ natLE 8 n ++ args).take 32 = h := by
    rw [List.append_assoc, ← h32]
    exact List.take_left h (natLE 8 n ++ args)
  have hdrop32 : (h ++ natLE 8 n ++ args).drop 32 = natLE 8 n ++ args := by
    rw [List.append_assoc, ← h32]
    exact List.drop_left h (natLE 8 n ++ args)
  have htake8 : (natLE 8 n ++ args).take 8 = natLE 8 n := by
    rw [← hlen]; exact List.take_left _ _
  have hdrop40 : (h ++ natLE 8 n ++ args).drop 40 = args := by
    have : (40 : Nat) = 32 + 8 := by norm_num
    rw [this, ← List.drop_drop, hdrop32, ← hlen]
    exact List.drop_left _ _
  have hn : natFromLE (natLE 8 n) = n := by
    apply natFromLE_natLE
    calc n < 2 ^ 64 := h64
      _ = 256 ^ 8 := by norm_num
  have hnot : ¬ (h ++ natLE 8 n ++ args).length < 40 := by
    rw [hfull]; omega
  unfold decodeCustodianLockArgs custodianLockArgsAsBytes
  rw [if_neg hnot, htake, hdrop40, hdrop32, htake8, hn]

/-! ## Rollup context, blocks and cell info -/

/-- The part of `RollupContext` the embedded code reads: the rollup config's
custodian script type hash. -/
structure RollupContext where
  custodian_script_type_hash : Bytes
deriving DecidableEq

/-- The projections of the (opaque molecule) `L2Block` value that
`main.rs` uses: its hash, its raw number and its serialized bytes. -/
structure L2Block where
  hash : Bytes
  number : Nat
  bytes : Bytes
deriving DecidableEq

/-- The serialized new global state; `main.rs` only calls `as_bytes` on it. -/
structure GlobalState where
  bytes : Bytes
deriving DecidableEq

/-- `cell_collector::CellInfo`-like record: a live cell together with the
deps needed to spend it. -/
structure CellInfo where
  out_point : OutPoint
  output : CellOutput
  data : Bytes
  lock_dep : CellDep
  type_dep : Option CellDep
deriving DecidableEq

/-- `cell_collector::DepositInfo`: a deposit cell plus its deposition
request (opaque to the code embedded here). -/
structure DepositInfo where
  cell : CellInfo
  request : Bytes
deriving DecidableEq

/-! ## Custodian derivation (`generate_custodian_cells`) -/

/-- Embedding of `generate_custodian_cells` (main.rs:40-79): for each
consumed deposit, a custodian output whose lock is the rollup's custodian
script parameterized by the block hash, the block number and the deposit's
original lock args, and whose capacity, type and data are the deposit's. -/
def generate_custodian_cells (rollup_context : RollupContext) (block : L2Block)
    (deposit_cells : List DepositInfo) : List (CellOutput × Bytes) :=
  let block_hash := block.hash
  let block_number := block.number
  deposit_cells.map fun deposit_info =>
    let lock_args : CustodianLockArgs :=
      { deposition_block_hash := block_hash
        deposition_block_number := block_number
        deposition_lock_args := deposit_info.cell.output.lock.args }
    let lock : Script :=
      { code_hash := rollup_context.custodian_script_type_hash
        hash_type := scriptHashTypeType
        args := custodianLockArgsAsBytes lock_args }
    let cell := { deposit_info.cell.output with lock := lock }
    (cell, deposit_info.cell.data)

/-! ## Transaction skeleton

The `TransactionSkeleton` accumulator lives in
`crates/block-producer/src/transaction_skeleton.rs`, which is not among
these sources; it is modelled from the spec (§3, §4.3): four ordered
sequences, with the cell-dependency sequence behaving as a deduplicated set
(insertion is a no-op when the dep is already present), witnesses padded to
the inputs at seal time and signatures attached positionally. -/

/-- Modelled from the spec: the mutable accumulator of base-chain
transaction parts. -/
structure TransactionSkeleton where
  inputs : List CellInput
  outputs : List (CellOutput × Bytes)
  cell_deps : List CellDep
  witnesses : List WitnessArgs
deriving DecidableEq

/-- The empty skeleton (`TransactionSkeleton::default()`). -/
def TransactionSkeleton.empty : TransactionSkeleton :=
  { inputs := [], outputs := [], cell_deps := [], witnesses := [] }

/-- Insert a cell dep, keeping the sequence a deduplicated set with stable
insertion order. -/
def insertDep (acc : List CellDep) (d : CellDep) : List CellDep :=
  if d ∈ acc then acc else acc ++ [d]

/-- Insert several cell deps in order. -/
def insertAll (acc : List CellDep) (ds : List CellDep) : List CellDep :=
  ds.foldl insertDep acc

/-- `tx_skeleton.cell_deps_mut().push(d)` under the spec's set semantics. -/
def pushCellDep (sk : TransactionSkeleton) (d : CellDep) : TransactionSkeleton :=
  { sk with cell_deps := insertDep sk.cell_deps d }

/-- `tx_skeleton.cell_deps_mut().extend(ds)` under the spec's set
semantics. -/
def extendCellDeps (sk : TransactionSkeleton) (ds : List CellDep) : TransactionSkeleton :=
  { sk with cell_deps := insertAll sk.cell_deps ds }

theorem mem_insertDep (acc : List CellDep) (d x : CellDep) :
    x ∈ insertDep acc d ↔ x ∈ acc ∨ x = d := by
  by_cases h : d ∈ acc
  · simp only [insertDep, if_pos h]
    constructor
    · exact Or.inl
    · rintro (hx | rfl)
      · exact hx
      · exact h
  · simp [insertDep, if_neg h]

theorem nodup_insertDep (acc : List CellDep) (d : CellDep) (h : acc.Nodup) :
    (insertDep acc d).Nodup := by
  by_cases hd : d ∈ acc
  · simpa [insertDep, if_pos hd] using h
  · simp [insertDep, if_neg hd, List.nodup_append, h, hd]

theorem mem_insertAll (acc ds : List CellDep) (x : CellDep) :
    x ∈ insertAll acc ds ↔ x ∈ acc ∨ x ∈ ds := by
  induction ds generalizing acc with
  | nil => simp [insertAll]
  | cons d ds ih =>
    simp only [insertAll, List.foldl_cons] at *
    rw [ih (insertDep acc d), mem_insertDep]
    constructor
    · rintro ((hx | rfl) | hx)
      · exact Or.inl hx
      · exact Or.inr (List.mem_cons_self _ _)
      · exact Or.inr (List.mem_cons_of_mem _ hx)
    · rintro (hx | hx)
      · exact Or.inl (Or.inl hx)
      · rcases List.mem_cons.mp hx with rfl | hx
        · exact Or.inl (Or.inr rfl)
        · exact Or.inr hx

theorem nodup_insertAll (acc ds : List CellDep) (h : acc.Nodup) :
    (insertAll acc ds).Nodup := by
  induction ds generalizing acc with
  | nil => exact h
  | cons d ds ih => exact ih (insertDep acc d) (nodup_insertDep acc d h)

/-- An immutable sealed transaction. -/
structure Transaction where
  inputs : List CellInput
  outputs : List (CellOutput × Bytes)
  cell_deps : List CellDep
  witnesses : List WitnessArgs
deriving DecidableEq

/-- An empty `WitnessArgs`. -/
def emptyWitnessArgs : WitnessArgs :=
  { lock := none, input_type := none, output_type := none }

/-- Attach a signature into the lock field of witness slot `i`. -/
def setWitnessLock (ws : List WitnessArgs) (i : Nat) (sig : Bytes) : List WitnessArgs :=
  ws.enum.map fun p => if p.1 = i then { p.2 with lock := some sig } else p.2

/-- Errors of skeleton assembly and sealing. -/
inductive BuildTxError where
  | rollupCellNotFound
  | rollupTypeDepMissing
  | incompleteTransaction
deriving DecidableEq

/-- Modelled from the spec: `TransactionSkeleton::seal` (step 10 of §4.3):
check the signature count against the signature-requiring input slots, pad
the witnesses with empty witness args up to the number of inputs, and attach
each signature into the lock field of its input's witness slot. -/
def TransactionSkeleton.seal (sk : TransactionSkeleton) (signatures : List Bytes)
    (sigIndices : List Nat) : Except BuildTxError Transaction :=
  if signatures.length = sigIndices.length ∧ sk.witnesses.length ≤ sk.inputs.length then
    let padded :=
      sk.witnesses ++ List.replicate (sk.inputs.length - sk.witnesses.length) emptyWitnessArgs
    let ws := (sigIndices.zip signatures).foldl (fun acc p => setWitnessLock acc p.1 p.2) padded
    Except.ok
      { inputs := sk.inputs, outputs := sk.outputs, cell_deps := sk.cell_deps, witnesses := ws }
  else Except.error BuildTxError.incompleteTransaction

/-! ## Serialization of the unsigned transaction

Modelled from the spec: a simple injective byte encoding standing for the
molecule encoding (length-prefixed concatenation), used to state
byte-identity of unsigned transactions. -/

/-- Length-prefixed byte string. -/
def serBytes (bs : Bytes) : Bytes := natLE 4 bs.length ++ bs

/-- Encode an optional byte string. -/
def serOptBytes : Option Bytes → Bytes
  | none => [0]
  | some bs => 1 :: serBytes bs

/-- Encode a list with a length prefix. -/
def serList {α : Type} (f : α → Bytes) (xs : List α) : Bytes :=
  natLE 4 xs.length ++ (xs.map f).flatten

def serOutPoint (o : OutPoint) : Bytes := serBytes o.tx_hash ++ natLE 4 o.index

def serScript (s : Script) : Bytes :=
  serBytes s.code_hash ++ [s.hash_type % 256] ++ serBytes s.args

def serCellOutput (c : CellOutput) : Bytes :=
  natLE 8 c.capacity ++ serScript c.lock ++
    (match c.type_ with
     | none => [0]
     | some t => 1 :: serScript t)

def serCellDep (d : CellDep) : Bytes := serOutPoint d.out_point ++ natLE 1 d.dep_type

def serWitnessArgs (w : WitnessArgs) : Bytes :=
  serOptBytes w.lock ++ serOptBytes w.input_type ++ serOptBytes w.output_type

/-- The byte encoding of a skeleton's unsigned content. -/
def serializeSkeleton (sk : TransactionSkeleton) : Bytes :=
  serList (fun i => serOutPoint i.previous_output) sk.inputs ++
    serList (fun o => serCellOutput o.1 ++ serBytes o.2) sk.outputs ++
    serList serCellDep sk.cell_deps ++
    serList serWitnessArgs sk.witnesses

/-! ## Collector, wallet, fee filling and `build_tx` -/

/-- Modelled from the spec: the `CellCollector` collaborator, represented
by the answers it gives during one production cycle: the rollup cell, the
deposit cells, the fee-source cells `fill_tx_fee` selects (inputs, change
outputs and their deps), and whether `send_transaction` succeeds. -/
structure CellCollector where
  rollup_cell : Option CellInfo
  deposit_cells : List DepositInfo
  fee_inputs : List CellInput
  fee_outputs : List (CellOutput × Bytes)
  fee_deps : List CellDep
  send_ok : Bool

/-- Modelled from the spec: the wallet collaborator — a lock hash and a
side-effect-free signing function. -/
structure Wallet where
  lock_hash : Bytes
  sign : Bytes → Bytes

/-- Modelled from the spec: `utils::fill_tx_fee` (step 8 of §4.3) appends
the fee-source inputs, the change outputs and their cell deps after steps
1-7, so that it sees the true transaction size. -/
def fill_tx_fee (sk : TransactionSkeleton) (collector : CellCollector) : TransactionSkeleton :=
  let sk := { sk with inputs := sk.inputs ++ collector.fee_inputs }
  let sk := { sk with outputs := sk.outputs ++ collector.fee_outputs }
  extendCellDeps sk collector.fee_deps

/-- The deposits' type-script deps, as collected by
`deposit_cells.iter().filter_map(|deposit| deposit.cell.type_dep.clone())`
(main.rs:133-136) before they go into the `HashSet`. -/
def depositTypeDeps (deposit_cells : List DepositInfo) : List CellDep :=
  deposit_cells.filterMap fun deposit => deposit.cell.type_dep

/-- `order` is a possible iteration order of the Rust
`HashSet<CellDep>` built from `s`: the set's elements, each exactly once,
in an order the hasher chooses. -/
def IsHashSetIter (s order : List CellDep) : Prop :=
  order.Nodup ∧ (∀ d ∈ order, d ∈ s) ∧ (∀ d ∈ s, d ∈ order)

instance (s order : List CellDep) : Decidable (IsHashSetIter s order) := by
  unfold IsHashSetIter; infer_instance

/-- Embedding of `build_tx` up to (and excluding) signing and sealing
(main.rs:89-143).  `typeDepOrder` is the iteration order of the
`HashSet<CellDep>` of deposit type deps (main.rs:133-137): the Rust hash
set does not fix it, so it is an explicit parameter here. -/
def buildTxSkeleton (rollup_context : RollupContext) (collector : CellCollector)
    (deposit_cells : List DepositInfo) (block : L2Block) (global_state : GlobalState)
    (typeDepOrder : List CellDep) : Except BuildTxError TransactionSkeleton :=
  match collector.rollup_cell with
  | none => Except.error BuildTxError.rollupCellNotFound
  | some rollup_cell_info =>
    match rollup_cell_info.type_dep with
    | none => Except.error BuildTxError.rollupTypeDepMissing
    | some rollup_type_dep =>
      let sk := TransactionSkeleton.empty
      -- rollup cell
      let sk := { sk with inputs := sk.inputs ++ [⟨rollup_cell_info.out_point⟩] }
      -- deps
      let sk := pushCellDep sk rollup_type_dep
      let sk := pushCellDep sk rollup_cell_info.lock_dep
      -- deposit lock dep
      let sk := match deposit_cells.head? with
        | some deposit => pushCellDep sk deposit.cell.lock_dep
        | none => sk
      -- witnesses
      let sk := { sk with
        witnesses := sk.witnesses ++ [(⟨none, none, some block.bytes⟩ : WitnessArgs)] }
      -- output
      let sk := { sk with outputs := sk.outputs ++ [(rollup_cell_info.output, global_state.bytes)] }
      -- deposit cells
      let sk := { sk with
        inputs := sk.inputs ++
          deposit_cells.map fun deposit => (⟨deposit.cell.out_point⟩ : CellInput) }
      -- deposit type deps, via the hash set
      let sk := extendCellDeps sk typeDepOrder
      -- custodian cells
      let sk := { sk with
        outputs := sk.outputs ++ generate_custodian_cells rollup_context block deposit_cells }
      -- tx fee cell
      let sk := fill_tx_fee sk collector
      Except.ok sk

/-- The input slots that require a wallet signature: the fee inputs,
appended after the rollup input and the deposit inputs. -/
def feeSigIndices (nDeposits nFee : Nat) : List Nat :=
  (List.range nFee).map fun j => 1 + nDeposits + j

/-- Modelled from the spec: `signature_messages` derives one canonical
message per signature-requiring input, in input order, from the skeleton's
content. -/
def TransactionSkeleton.signature_messages (sk : TransactionSkeleton)
    (sigIndices : List Nat) : List Bytes :=
  sigIndices.map fun i => natLE 8 i ++ serializeSkeleton sk

/-- Embedding of `build_tx` (main.rs:81-150): assemble the skeleton, derive
the signature messages, sign them with the wallet and seal. -/
def build_tx (rollup_context : RollupContext) (collector : CellCollector) (wallet : Wallet)
    (deposit_cells : List DepositInfo) (block : L2Block) (global_state : GlobalState)
    (typeDepOrder : List CellDep) : Except BuildTxError Transaction :=
  match buildTxSkeleton rollup_context collector deposit_cells block global_state typeDepOrder with
  | Except.error e => Except.error e
  | Except.ok sk =>
    let sigIndices := feeSigIndices deposit_cells.length collector.fee_inputs.length
    let messages := sk.signature_messages sigIndices
    let signatures := messages.map wallet.sign
    sk.seal signatures sigIndices

/-- Insert the first deposit's lock dep, if any (main.rs:107-111). -/
def insertFirstLockDep (acc : List CellDep) (deposit_cells : List DepositInfo) : List CellDep :=
  match deposit_cells.head? with
  | some deposit => insertDep acc deposit.cell.lock_dep
  | none => acc

/-- The cell-dep sequence `buildTxSkeleton` accumulates, in closed form. -/
def skeletonCellDeps (rollup_type_dep rollup_lock_dep : CellDep)
    (deposit_cells : List DepositInfo) (typeDepOrder feeDeps : List CellDep) : List CellDep :=
  insertAll
    (insertAll
      (insertFirstLockDep (insertDep (insertDep [] rollup_type_dep) rollup_lock_dep)
        deposit_cells)
      typeDepOrder)
    feeDeps

/-- `buildTxSkeleton`, in closed form: when the rollup cell and its type dep
exist, assembly succeeds and the four sequences are exactly these. -/
theorem buildTxSkeleton_eq (rollup_context : RollupContext) (collector : CellCollector)
    (deposit_cells : List DepositInfo) (block : L2Block) (global_state : GlobalState)
    (typeDepOrder : List CellDep) (rollup_cell_info : CellInfo) (rollup_type_dep : CellDep)
    (hr : collector.rollup_cell = some rollup_cell_info)
    (ht : rollup_cell_info.type_dep = some rollup_type_dep) :
    buildTxSkeleton rollup_context collector deposit_cells block global_state typeDepOrder =
      Except.ok
        { inputs := ⟨rollup_cell_info.out_point⟩ ::
            (deposit_cells.map fun deposit => ⟨deposit.cell.out_point⟩) ++ collector.fee_inputs
          outputs := (rollup_cell_info.output, global_state.bytes) ::
            generate_custodian_cells rollup_context block deposit_cells ++ collector.fee_outputs
          cell_deps := skeletonCellDeps rollup_type_dep rollup_cell_info.lock_dep
            deposit_cells typeDepOrder collector.fee_deps
          witnesses := [⟨none, none, some block.bytes⟩] } := by
  cases deposit_cells with
  | nil =>
    simp [buildTxSkeleton, hr, ht, TransactionSkeleton.empty, pushCellDep, extendCellDeps,
      fill_tx_fee, skeletonCellDeps, insertFirstLockDep]
  | cons d rest =>
    simp [buildTxSkeleton, hr, ht, TransactionSkeleton.empty, pushCellDep, extendCellDeps,
      fill_tx_fee, skeletonCellDeps, insertFirstLockDep]

/-! ## Mem pool snapshot and `produce_next_block` -/

/-- A pending mem-pool entry: its layer-2 transactions and withdrawal
requests (both opaque byte values here). -/
structure MemPoolEntry where
  txs : List Bytes
  withdrawals : List Bytes
deriving DecidableEq

/-- One step of the snapshot loop (main.rs:168-174): an entry with a first
withdrawal contributes that withdrawal; otherwise all its transactions are
appended. -/
def snapshotStep (acc : List Bytes × List Bytes) (entry : Nat × MemPoolEntry) :
    List Bytes × List Bytes :=
  match entry.2.withdrawals.head? with
  | some withdrawal => (acc.1, acc.2 ++ [withdrawal])
  | none => (acc.1 ++ entry.2.txs, acc.2)

/-- The snapshot of `mem_pool.pending()` taken by `produce_next_block`
(main.rs:163-175): the `(txs, withdrawal_requests)` pair. -/
def snapshotPending (pending : List (Nat × MemPoolEntry)) : List Bytes × List Bytes :=
  pending.foldl snapshotStep ([], [])

/-- The part of `Chain` that `produce_next_block` reads: the pending mem
pool, the tip (parent block), the rollup context, and whether
`notify_new_tip` succeeds when called. -/
structure Chain where
  pending : List (Nat × MemPoolEntry)
  tip : L2Block
  rollup_context : RollupContext
  notify_ok : Bool

/-- `ProduceBlockParam` as filled by `produce_next_block` (main.rs:179-190);
the store transaction and generator handles carry no data relevant here. -/
structure ProduceBlockParam where
  block_producer_id : Nat
  timestamp : Nat
  txs : List Bytes
  deposition_requests : List Bytes
  withdrawal_requests : List Bytes
  parent_block : L2Block
  rollup_config_hash : Bytes
  max_withdrawal_capacity : Nat

/-- `ProduceBlockResult`: what the external execution engine returns. -/
structure ProduceBlockResult where
  block : L2Block
  global_state : GlobalState
  unused_transactions : List Bytes
  unused_withdrawal_requests : List Bytes

/-- `std::u128::MAX`. -/
def u128MAX : Nat := 2 ^ 128 - 1

/-- The parameter record `produce_next_block` passes to `produce_block`
(main.rs:176-190): the snapshot, the deposits' requests, the parent block,
and an unbounded (`u128::MAX`) withdrawal-capacity ceiling. -/
def mkProduceBlockParam (chain : Chain) (deposit_cells : List DepositInfo)
    (rollup_config_hash : Bytes) (block_producer_id timestamp : Nat) : ProduceBlockParam :=
  { block_producer_id := block_producer_id
    timestamp := timestamp
    txs := (snapshotPending chain.pending).1
    deposition_requests := deposit_cells.map fun d => d.request
    withdrawal_requests := (snapshotPending chain.pending).2
    parent_block := chain.tip
    rollup_config_hash := rollup_config_hash
    max_withdrawal_capacity := u128MAX }

/-- The errors a production cycle can end with. -/
inductive StepError where
  | produceBlockFailed
  | buildTxFailed (e : BuildTxError)
  | sendFailed
  | notifyFailed
deriving DecidableEq

/-- Embedding of `produce_next_block` (main.rs:152-221).  The external
execution engine is the function argument `produce_block`; submission and
tip notification outcomes come from the collector and chain records.  The
returned boolean records whether `mem_pool.notify_new_tip` was called. -/
def produce_next_block (collector : CellCollector) (wallet : Wallet) (chain : Chain)
    (produce_block : ProduceBlockParam → Except Unit ProduceBlockResult)
    (rollup_config_hash : Bytes) (block_producer_id timestamp : Nat)
    (typeDepOrder : List CellDep) : Except StepError Unit × Bool :=
  let deposit_cells := collector.deposit_cells
  let param := mkProduceBlockParam chain deposit_cells rollup_config_hash
    block_producer_id timestamp
  match produce_block param with
  | Except.error _ => (Except.error StepError.produceBlockFailed, false)
  | Except.ok block_result =>
    match build_tx chain.rollup_context collector wallet deposit_cells
        block_result.block block_result.global_state typeDepOrder with
    | Except.error e => (Except.error (StepError.buildTxFailed e), false)
    | Except.ok _tx =>
      if collector.send_ok then
        ((if chain.notify_ok then Except.ok () else Except.error StepError.notifyFailed), true)
      else (Except.error StepError.sendFailed, false)

/-! ## Mem-pool sync consumer (`crates/mem-pool/src/sync/subscribe.rs`) -/

/-- The wire message `NextL2Transaction`. -/
structure NextL2Transaction where
  tx : Bytes
  mem_block_number : Nat

/-- Embedding of `SubscribeMemPoolService::next_tx` (subscribe.rs:22-36):
apply the pool's `append_tx` (an external effect, given here as a
function); when it fails the error is logged and absorbed, and `next_tx`
returns `Ok(())` either way. -/
def next_tx {ε : Type} (append_tx : NextL2Transaction → Except ε Unit)
    (next : NextL2Transaction) : Except ε Unit :=
  match append_tx next with
  | Except.error _err => Except.ok ()   -- log::error! then fall through
  | Except.ok _ => Except.ok ()

/-- What one iteration of the spawned consumer loop decides. -/
inductive LoopControl where
  | continueLoop
  | exitLoop
deriving DecidableEq

/-- Embedding of the loop body of `spawn_sub_mem_pool_task`
(subscribe.rs:67-71): a poll error is logged and the loop goes on; there is
no path that leaves the loop. -/
def consumerLoopBody {ε : Type} (poll_result : Except ε Unit) : LoopControl :=
  match poll_result with
  | Except.error _err => LoopControl.continueLoop   -- log::error! then continue
  | Except.ok _ => LoopControl.continueLoop

/-- Run the consumer loop over a finite prefix of poll results, counting the
messages it processes before (if ever) it exits. -/
def consumerRun {ε : Type} : List (Except ε Unit) → Nat
  | [] => 0
  | r :: rs =>
    match consumerLoopBody r with
    | LoopControl.continueLoop => consumerRun rs + 1
    | LoopControl.exitLoop => 0

/-! ## Snapshot lemmas -/

theorem snapshotPending_foldl (pending : List (Nat × MemPoolEntry)) (txs ws : List Bytes) :
    pending.foldl snapshotStep (txs, ws) =
      (txs ++ ((pending.filter fun e => e.2.withdrawals.isEmpty).map fun e => e.2.txs).flatten,
        ws ++ pending.filterMap fun e => e.2.withdrawals.head?) := by
  induction pending generalizing txs ws with
  | nil => simp
  | cons e rest ih =>
    cases hw : e.2.withdrawals with
    | nil =>
      simp [List.foldl_cons, snapshotStep, hw, ih, List.filter_cons, List.filterMap_cons]
    | cons w ws' =>
      simp [List.foldl_cons, snapshotStep, hw, ih, List.filter_cons, List.filterMap_cons]

/-- C6: when snapshotting the mem pool, `produce_next_block` partitions
every pending entry: an entry with at least one withdrawal contributes
exactly its first withdrawal to the cycle's withdrawal requests, and an
entry without withdrawals contributes all of its transactions to the
cycle's transaction list. -/
theorem snapshot_partitions_entries (pending : List (Nat × MemPoolEntry)) :
    (snapshotPending pending).2 = (pending.filterMap fun e => e.2.withdrawals.head?) ∧
    (snapshotPending pending).1 =
      ((pending.filter fun e => e.2.withdrawals.isEmpty).map fun e => e.2.txs).flatten := by
  rw [snapshotPending, snapshotPending_foldl]
  simp

/-- C10: a pending entry carrying a withdrawal contributes nothing but its
first withdrawal to the snapshot: replacing such an entry's transaction
list by the empty list and its withdrawal list by the first withdrawal
alone leaves the snapshot unchanged — the entry's transactions and its
further withdrawals are silently excluded from the block being produced. -/
theorem withdrawal_entry_txs_excluded (pre post : List (Nat × MemPoolEntry)) (k : Nat)
    (txs : List Bytes) (w : Bytes) (ws : List Bytes) :
    snapshotPending (pre ++ (k, ⟨txs, w :: ws⟩) :: post) =
      snapshotPending (pre ++ (k, ⟨[], [w]⟩) :: post) := by
  rw [snapshotPending, snapshotPending, List.foldl_append, List.foldl_append,
    List.foldl_cons, List.foldl_cons]
  rfl

/-! ## Sync consumer theorems -/

/-- C8: a single message's failure never terminates the sync consumer:
`next_tx` returns `Ok` for every transaction message even when the
underlying `append_tx` fails, the loop body of the spawned consumer task
decides to continue on every poll outcome (error or not), and a run of the
loop therefore processes every message of any finite poll sequence. -/
theorem sync_consumer_never_terminates :
    (∀ (ε : Type) (append_tx : NextL2Transaction → Except ε Unit) (next : NextL2Transaction),
        next_tx append_tx next = Except.ok ()) ∧
    (∀ (ε : Type) (poll_result : Except ε Unit),
        consumerLoopBody poll_result = LoopControl.continueLoop) ∧
    (∀ (ε : Type) (polls : List (Except ε Unit)), consumerRun polls = polls.length) := by
  refine ⟨fun ε append_tx next => ?_, fun ε r => ?_, fun ε polls => ?_⟩
  · unfold next_tx
    cases append_tx next <;> rfl
  · cases r <;> rfl
  · induction polls with
    | nil => rfl
    | cons r rs ih =>
      cases r <;> simp [consumerRun, consumerLoopBody, ih]

/-! ## Production-cycle theorems -/

/-- C9: `produce_next_block` fills the execution parameter with an
unbounded withdrawal-capacity ceiling — `max_withdrawal_capacity` is
`u128::MAX` — so the engine it invokes can never observe any other
ceiling: pre-capping the engine's parameter at `2 ^ 128 - 1` changes
nothing. -/
theorem max_withdrawal_capacity_unbounded (chain : Chain)
    (deposit_cells : List DepositInfo) (rollup_config_hash : Bytes)
    (block_producer_id timestamp : Nat) :
    (mkProduceBlockParam chain deposit_cells rollup_config_hash block_producer_id
        timestamp).max_withdrawal_capacity = 2 ^ 128 - 1 ∧
    ∀ (collector : CellCollector) (wallet : Wallet)
      (produce_block : ProduceBlockParam → Except Unit ProduceBlockResult)
      (typeDepOrder : List CellDep),
      produce_next_block collector wallet chain produce_block rollup_config_hash
          block_producer_id timestamp typeDepOrder =
        produce_next_block collector wallet chain
          (fun p => produce_block { p with max_withdrawal_capacity := 2 ^ 128 - 1 })
          rollup_config_hash block_producer_id timestamp typeDepOrder := by
  exact ⟨rfl, fun collector wallet produce_block typeDepOrder => rfl⟩

/-- C7: the tip is notified only after successful submission.
`notify_new_tip` is called (the cycle's boolean) exactly when deposit
collection, execution, transaction building and submission all succeeded;
and whenever it is not called the cycle returns the failing step's error —
never the notification error. -/
theorem notify_only_after_submission (collector : CellCollector) (wallet : Wallet)
    (chain : Chain) (produce_block : ProduceBlockParam → Except Unit ProduceBlockResult)
    (rollup_config_hash : Bytes) (block_producer_id timestamp : Nat)
    (typeDepOrder : List CellDep) :
    (((produce_next_block collector wallet chain produce_block rollup_config_hash
          block_producer_id timestamp typeDepOrder).2 = true) ↔
        (∃ block_result,
          produce_block (mkProduceBlockParam chain collector.deposit_cells
              rollup_config_hash block_producer_id timestamp) = Except.ok block_result ∧
          (∃ tx, build_tx chain.rollup_context collector wallet collector.deposit_cells
              block_result.block block_result.global_state typeDepOrder = Except.ok tx) ∧
          collector.send_ok = true)) ∧
    ((produce_next_block collector wallet chain produce_block rollup_config_hash
          block_producer_id timestamp typeDepOrder).2 = false →
        ∃ e, (produce_next_block collector wallet chain produce_block rollup_config_hash
            block_producer_id timestamp typeDepOrder).1 = Except.error e ∧
          e ≠ StepError.notifyFailed) := by
  cases hpb : produce_block (mkProduceBlockParam chain collector.deposit_cells
      rollup_config_hash block_producer_id timestamp) with
  | error u =>
    refine ⟨?_, fun _ => ?_⟩
    · simp [produce_next_block, hpb]
    · exact ⟨StepError.produceBlockFailed, by simp [produce_next_block, hpb], by simp⟩
  | ok block_result =>
    cases hbt : build_tx chain.rollup_context collector wallet collector.deposit_cells
        block_result.block block_result.global_state typeDepOrder with
    | error e =>
      refine ⟨?_, fun _ => ?_⟩
      · simp [produce_next_block, hpb, hbt]
      · exact ⟨StepError.buildTxFailed e, by simp [produce_next_block, hpb, hbt], by simp⟩
    | ok tx =>
      cases hsend : collector.send_ok with
      | false =>
        refine ⟨?_, fun _ => ?_⟩
        · simp [produce_next_block, hpb, hbt, hsend]
        · exact ⟨StepError.sendFailed, by simp [produce_next_block, hpb, hbt, hsend], by simp⟩
      | true =>
        refine ⟨⟨fun _ => ⟨block_result, by simp [hpb], ⟨tx, by simp [hbt]⟩, by simp [hsend]⟩,
          fun _ => ?_⟩, fun habs => ?_⟩
        · simp [produce_next_block, hpb, hbt, hsend]
        · exact absurd habs (by simp [produce_next_block, hpb, hbt, hsend])

/-! ## Cell-dep accumulation lemmas -/

theorem mem_insertFirstLockDep (acc : List CellDep) (deposit_cells : List DepositInfo)
    (x : CellDep) :
    x ∈ insertFirstLockDep acc deposit_cells ↔
      x ∈ acc ∨ ∃ d rest, deposit_cells = d :: rest ∧ x = d.cell.lock_dep := by
  cases deposit_cells with
  | nil => simp [insertFirstLockDep]
  | cons d rest => simp [insertFirstLockDep, mem_insertDep]

theorem nodup_insertFirstLockDep (acc : List CellDep) (deposit_cells : List DepositInfo)
    (h : acc.Nodup) : (insertFirstLockDep acc deposit_cells).Nodup := by
  cases deposit_cells with
  | nil => exact h
  | cons d rest => exact nodup_insertDep _ _ h

theorem mem_skeletonCellDeps (rollup_type_dep rollup_lock_dep : CellDep)
    (deposit_cells : List DepositInfo) (typeDepOrder feeDeps : List CellDep) (x : CellDep) :
    x ∈ skeletonCellDeps rollup_type_dep rollup_lock_dep deposit_cells typeDepOrder feeDeps ↔
      x = rollup_type_dep ∨ x = rollup_lock_dep ∨
        (∃ d rest, deposit_cells = d :: rest ∧ x = d.cell.lock_dep) ∨
        x ∈ typeDepOrder ∨ x ∈ feeDeps := by
  unfold skeletonCellDeps
  rw [mem_insertAll, mem_insertAll, mem_insertFirstLockDep, mem_insertDep, mem_insertDep]
  simp [or_assoc]

theorem nodup_skeletonCellDeps (rollup_type_dep rollup_lock_dep : CellDep)
    (deposit_cells : List DepositInfo) (typeDepOrder feeDeps : List CellDep) :
    (skeletonCellDeps rollup_type_dep rollup_lock_dep deposit_cells typeDepOrder
        feeDeps).Nodup :=
  nodup_insertAll _ _ (nodup_insertAll _ _ (nodup_insertFirstLockDep _ _
    (nodup_insertDep _ _ (nodup_insertDep _ _ List.nodup_nil))))

/-- C4: the assembled skeleton's cell deps contain the first deposit's lock
dep exactly once, no matter how many deposits share that lock script and
despite the deduplicating later additions; and with no deposits, every cell
dep comes from the rollup deps or the fee source — no deposit lock dep is
added. -/
theorem deposit_lock_dep_deduplicated (rollup_context : RollupContext)
    (collector : CellCollector) (deposit_cells : List DepositInfo) (block : L2Block)
    (global_state : GlobalState) (typeDepOrder : List CellDep)
    (rollup_cell_info : CellInfo) (rollup_type_dep : CellDep) (sk : TransactionSkeleton)
    (hr : collector.rollup_cell = some rollup_cell_info)
    (ht : rollup_cell_info.type_dep = some rollup_type_dep)
    (hiter : IsHashSetIter (depositTypeDeps deposit_cells) typeDepOrder)
    (hsk : buildTxSkeleton rollup_context collector deposit_cells block global_state
        typeDepOrder = Except.ok sk) :
    (∀ d rest, deposit_cells = d :: rest → sk.cell_deps.count d.cell.lock_dep = 1) ∧
    (deposit_cells = [] → ∀ x ∈ sk.cell_deps,
        x = rollup_type_dep ∨ x = rollup_cell_info.lock_dep ∨ x ∈ collector.fee_deps) := by
  rw [buildTxSkeleton_eq rollup_context collector deposit_cells block global_state
    typeDepOrder rollup_cell_info rollup_type_dep hr ht] at hsk
  injection hsk with hsk
  subst hsk
  constructor
  · rintro d rest rfl
    apply List.count_eq_one_of_mem (nodup_skeletonCellDeps _ _ _ _ _)
    rw [mem_skeletonCellDeps]
    exact Or.inr (Or.inr (Or.inl ⟨d, rest, rfl, rfl⟩))
  · rintro rfl x hx
    rw [mem_skeletonCellDeps] at hx
    rcases hx with rfl | rfl | ⟨d, rest, hds, _⟩ | hx | hx
    · exact Or.inl rfl
    · exact Or.inr (Or.inl rfl)
    · exact absurd hds (by simp)
    · exact absurd (hiter.2.1 x hx) (by simp [depositTypeDeps])
    · exact Or.inr (Or.inr hx)

/-- C5: the deposits' type-script deps enter the skeleton's cell deps as a
set union: the dep sequence has no duplicates, each distinct type dep of a
deposit appears exactly once however many deposits reference it, and every
cell dep is either a rollup dep, the first deposit's lock dep, the type
dep of some deposit (so deposits whose `type_dep` is `none` contribute
nothing), or a fee dep. -/
theorem deposit_type_deps_set_union (rollup_context : RollupContext)
    (collector : CellCollector) (deposit_cells : List DepositInfo) (block : L2Block)
    (global_state : GlobalState) (typeDepOrder : List CellDep)
    (rollup_cell_info : CellInfo) (rollup_type_dep : CellDep) (sk : TransactionSkeleton)
    (hr : collector.rollup_cell = some rollup_cell_info)
    (ht : rollup_cell_info.type_dep = some rollup_type_dep)
    (hiter : IsHashSetIter (depositTypeDeps deposit_cells) typeDepOrder)
    (hsk : buildTxSkeleton rollup_context collector deposit_cells block global_state
        typeDepOrder = Except.ok sk) :
    sk.cell_deps.Nodup ∧
    (∀ td ∈ depositTypeDeps deposit_cells, sk.cell_deps.count td = 1) ∧
    (∀ x ∈ sk.cell_deps,
        x = rollup_type_dep ∨ x = rollup_cell_info.lock_dep ∨
        (∃ d rest, deposit_cells = d :: rest ∧ x = d.cell.lock_dep) ∨
        (∃ dep ∈ deposit_cells, dep.cell.type_dep = some x) ∨
        x ∈ collector.fee_deps) := by
  rw [buildTxSkeleton_eq rollup_context collector deposit_cells block global_state
    typeDepOrder rollup_cell_info rollup_type_dep hr ht] at hsk
  injection hsk with hsk
  subst hsk
  refine ⟨nodup_skeletonCellDeps _ _ _ _ _, fun td htd => ?_, fun x hx => ?_⟩
  · apply List.count_eq_one_of_mem (nodup_skeletonCellDeps _ _ _ _ _)
    rw [mem_skeletonCellDeps]
    exact Or.inr (Or.inr (Or.inr (Or.inl (hiter.2.2 td htd))))
  · rw [mem_skeletonCellDeps] at hx
    rcases hx with rfl | rfl | h | hx | hx
    · exact Or.inl rfl
    · exact Or.inr (Or.inl rfl)
    · exact Or.inr (Or.inr (Or.inl h))
    · refine Or.inr (Or.inr (Or.inr (Or.inl ?_)))
      have := hiter.2.1 x hx
      rw [depositTypeDeps, List.mem_filterMap] at this
      exact this
    · exact Or.inr (Or.inr (Or.inr (Or.inr hx)))

/-! ## Sealing lemmas -/

theorem seal_ok (sk : TransactionSkeleton) (signatures : List Bytes) (sigIndices : List Nat)
    (hlen : signatures.length = sigIndices.length)
    (hw : sk.witnesses.length ≤ sk.inputs.length) :
    sk.seal signatures sigIndices = Except.ok
      { inputs := sk.inputs, outputs := sk.outputs, cell_deps := sk.cell_deps,
        witnesses := (sigIndices.zip signatures).foldl
          (fun acc p => setWitnessLock acc p.1 p.2)
          (sk.witnesses ++ List.replicate (sk.inputs.length - sk.witnesses.length)
            emptyWitnessArgs) } := by
  rw [TransactionSkeleton.seal, if_pos ⟨hlen, hw⟩]

theorem head?_setWitnessLock (ws : List WitnessArgs) (i : Nat) (sig : Bytes) (hi : i ≠ 0) :
    (setWitnessLock ws i sig).head? = ws.head? := by
  cases ws with
  | nil => rfl
  | cons w rest => simp [setWitnessLock, List.enum_cons, Ne.symm hi]

theorem head?_foldl_setWitnessLock (pairs : List (Nat × Bytes)) (ws : List WitnessArgs)
    (h : ∀ p ∈ pairs, p.1 ≠ 0) :
    (pairs.foldl (fun acc p => setWitnessLock acc p.1 p.2) ws).head? = ws.head? := by
  induction pairs generalizing ws with
  | nil => rfl
  | cons p ps ih =>
    rw [List.foldl_cons, ih _ fun q hq => h q (List.mem_cons_of_mem _ hq)]
    exact head?_setWitnessLock _ _ _ (h p (List.mem_cons_self _ _))

/-- C3: in every transaction `build_tx` assembles, position 0 of each
sequence is fixed: input 0 spends the previous rollup cell's out-point,
witness 0 carries the serialized new block in its output-type field, and
output 0 recreates the rollup cell — its scripts verbatim from the rollup
cell — with the serialized new global state as its data. -/
theorem build_tx_position_zero (rollup_context : RollupContext) (collector : CellCollector)
    (wallet : Wallet) (deposit_cells : List DepositInfo) (block : L2Block)
    (global_state : GlobalState) (typeDepOrder : List CellDep) (tx : Transaction)
    (rollup_cell_info : CellInfo)
    (hr : collector.rollup_cell = some rollup_cell_info)
    (htx : build_tx rollup_context collector wallet deposit_cells block global_state
        typeDepOrder = Except.ok tx) :
    tx.inputs.head? = some ⟨rollup_cell_info.out_point⟩ ∧
    tx.witnesses.head? = some ⟨none, none, some block.bytes⟩ ∧
    tx.outputs.head? = some (rollup_cell_info.output, global_state.bytes) := by
  cases ht : rollup_cell_info.type_dep with
  | none => simp [build_tx, buildTxSkeleton, hr, ht] at htx
  | some rollup_type_dep =>
    unfold build_tx at htx
    rw [buildTxSkeleton_eq rollup_context collector deposit_cells block global_state
      typeDepOrder rollup_cell_info rollup_type_dep hr ht] at htx
    simp only [] at htx
    rw [seal_ok] at htx
    · injection htx with htx
      subst htx
      refine ⟨rfl, ?_, rfl⟩
      rw [head?_foldl_setWitnessLock]
      · rfl
      · intro p hp
        have hmem := (List.of_mem_zip hp).1
        simp only [feeSigIndices, List.mem_map, List.mem_range] at hmem
        obtain ⟨j, _, hj⟩ := hmem
        omega
    · simp [TransactionSkeleton.signature_messages]
    · simp

/-- C1: for every deposit cell consumed in the block, `generate_custodian_cells`
produces exactly one custodian output whose lock has the rollup-configured
custodian code hash with hash-type `Type`, whose lock args decode to
exactly the block hash, the block number and the deposit's original lock
args, and whose capacity, type script and data are copied verbatim from
the deposit. -/
theorem custodian_cell_per_deposit (rollup_context : RollupContext) (block : L2Block)
    (deposit_cells : List DepositInfo) (i : Nat) (d : DepositInfo)
    (hd : deposit_cells[i]? = some d)
    (h32 : block.hash.length = 32) (h64 : block.number < 2 ^ 64) :
    (generate_custodian_cells rollup_context block deposit_cells).length =
      deposit_cells.length ∧
    (generate_custodian_cells rollup_context block deposit_cells)[i]? = some
      ({ capacity := d.cell.output.capacity
         lock := { code_hash := rollup_context.custodian_script_type_hash
                   hash_type := scriptHashTypeType
                   args := custodianLockArgsAsBytes
                     ⟨block.hash, block.number, d.cell.output.lock.args⟩ }
         type_ := d.cell.output.type_ }, d.cell.data) ∧
    decodeCustodianLockArgs (custodianLockArgsAsBytes
        ⟨block.hash, block.number, d.cell.output.lock.args⟩) =
      some ⟨block.hash, block.number, d.cell.output.lock.args⟩ := by
  refine ⟨by simp [generate_custodian_cells], ?_, ?_⟩
  · simp only [generate_custodian_cells, List.getElem?_map, hd]
    rfl
  · exact decode_custodianLockArgs_roundtrip _ h32 h64

/-! ## Concrete sample data -/

/-- Extract the success value of an `Except`. -/
def exceptOk? {ε α : Type} : Except ε α → Option α
  | Except.ok a => some a
  | Except.error _ => none

def sampleScript (n : Nat) : Script := ⟨[n], 1, [n, n + 1]⟩

def sampleDep (n : Nat) : CellDep := ⟨⟨[n], n⟩, 0⟩

def sampleDeposit (n : Nat) (td : Option CellDep) : DepositInfo :=
  { cell :=
      { out_point := ⟨[n], 0⟩
        output :=
          { capacity := 500 + n
            lock := sampleScript n
            type_ := some (sampleScript (n + 10)) }
        data := [n]
        lock_dep := sampleDep 40
        type_dep := td }
    request := [n] }

def sampleBlock : L2Block := ⟨List.replicate 32 1, 5, [9, 9]⟩

def sampleGlobalState : GlobalState := ⟨[8, 8]⟩

def sampleRollupContext : RollupContext := ⟨[7]⟩

def sampleRollupCell : CellInfo :=
  { out_point := ⟨[90], 0⟩
    output := { capacity := 1000, lock := sampleScript 91, type_ := some (sampleScript 92) }
    data := [2]
    lock_dep := sampleDep 50
    type_dep := some (sampleDep 51) }

def sampleCollector (deposits : List DepositInfo) : CellCollector :=
  { rollup_cell := some sampleRollupCell
    deposit_cells := deposits
    fee_inputs := [⟨⟨[95], 0⟩⟩]
    fee_outputs := [({ capacity := 99, lock := sampleScript 96, type_ := none }, [])]
    fee_deps := [sampleDep 60]
    send_ok := true }

def sampleWallet : Wallet := ⟨[1, 2], fun m => 77 :: m⟩

/-- Two deposits with two distinct sUDT type deps. -/
def sampleDepositsDistinct : List DepositInfo :=
  [sampleDeposit 1 (some (sampleDep 70)), sampleDeposit 2 (some (sampleDep 71))]

/-- Two deposits sharing one lock dep and one type dep. -/
def sampleDeposits2 : List DepositInfo :=
  [sampleDeposit 1 (some (sampleDep 70)), sampleDeposit 2 (some (sampleDep 70))]

def sampleCollector2 : CellCollector := sampleCollector sampleDeposits2

/-- The skeleton assembled on `sampleDeposits2`. -/
def sampleSkeleton2 : TransactionSkeleton :=
  (exceptOk? (buildTxSkeleton sampleRollupContext sampleCollector2 sampleDeposits2
      sampleBlock sampleGlobalState [sampleDep 70])).getD TransactionSkeleton.empty

def txDefault : Transaction := ⟨[], [], [], []⟩

set_option maxRecDepth 100000 in
/-- C2 (failing input): the skeleton-assembly pipeline reads the deposits'
type deps out of a Rust `HashSet`, whose iteration order the language does
not fix.  On one fixed input — same rollup cell, block, global state,
deposit set and fee source, with two deposits carrying two distinct type
deps — both orders of the two deps are possible hash-set iterations, and
the two runs serialize to different unsigned-transaction bytes: assembly
is not deterministic as the spec requires. -/
theorem unsigned_tx_depends_on_hash_order :
    IsHashSetIter (depositTypeDeps sampleDepositsDistinct) [sampleDep 70, sampleDep 71] ∧
    IsHashSetIter (depositTypeDeps sampleDepositsDistinct) [sampleDep 71, sampleDep 70] ∧
    (exceptOk? (buildTxSkeleton sampleRollupContext (sampleCollector sampleDepositsDistinct)
        sampleDepositsDistinct sampleBlock sampleGlobalState
        [sampleDep 70, sampleDep 71])).map serializeSkeleton ≠
      (exceptOk? (buildTxSkeleton sampleRollupContext (sampleCollector sampleDepositsDistinct)
          sampleDepositsDistinct sampleBlock sampleGlobalState
          [sampleDep 71, sampleDep 70])).map serializeSkeleton :=
  ⟨by decide, by decide, by decide⟩

/-! ## Concrete witnesses -/

/-- Witness for C1 at one concrete deposit. -/
theorem custodian_cell_per_deposit_witness :
    (generate_custodian_cells sampleRollupContext sampleBlock
        [sampleDeposit 1 none]).length = ([sampleDeposit 1 none] : List DepositInfo).length ∧
    (generate_custodian_cells sampleRollupContext sampleBlock [sampleDeposit 1 none])[0]? = some
      ({ capacity := (sampleDeposit 1 none).cell.output.capacity
         lock := { code_hash := sampleRollupContext.custodian_script_type_hash
                   hash_type := scriptHashTypeType
                   args := custodianLockArgsAsBytes
                     ⟨sampleBlock.hash, sampleBlock.number,
                       (sampleDeposit 1 none).cell.output.lock.args⟩ }
         type_ := (sampleDeposit 1 none).cell.output.type_ },
        (sampleDeposit 1 none).cell.data) ∧
    decodeCustodianLockArgs (custodianLockArgsAsBytes
        ⟨sampleBlock.hash, sampleBlock.number, (sampleDeposit 1 none).cell.output.lock.args⟩) =
      some ⟨sampleBlock.hash, sampleBlock.number, (sampleDeposit 1 none).cell.output.lock.args⟩ :=
  custodian_cell_per_deposit sampleRollupContext sampleBlock [sampleDeposit 1 none] 0
    (sampleDeposit 1 none) rfl rfl (by decide)

/-- The transaction `build_tx` assembles on one concrete deposit. -/
def sampleTx1 : Transaction :=
  (exceptOk? (build_tx sampleRollupContext (sampleCollector [sampleDeposit 1 none]) sampleWallet
      [sampleDeposit 1 none] sampleBlock sampleGlobalState [])).getD txDefault

set_option maxRecDepth 100000 in
/-- Witness for C3 on one concrete assembled transaction. -/
theorem build_tx_position_zero_witness :
    sampleTx1.inputs.head? = some ⟨sampleRollupCell.out_point⟩ ∧
    sampleTx1.witnesses.head? = some ⟨none, none, some sampleBlock.bytes⟩ ∧
    sampleTx1.outputs.head? = some (sampleRollupCell.output, sampleGlobalState.bytes) :=
  build_tx_position_zero sampleRollupContext (sampleCollector [sampleDeposit 1 none])
    sampleWallet [sampleDeposit 1 none] sampleBlock sampleGlobalState [] sampleTx1
    sampleRollupCell rfl rfl

/-- Witness for C4 on two concrete deposits sharing one lock dep. -/
theorem deposit_lock_dep_deduplicated_witness :
    (∀ d rest, sampleDeposits2 = d :: rest →
        sampleSkeleton2.cell_deps.count d.cell.lock_dep = 1) ∧
    (sampleDeposits2 = [] → ∀ x ∈ sampleSkeleton2.cell_deps,
        x = sampleDep 51 ∨ x = sampleRollupCell.lock_dep ∨
          x ∈ sampleCollector2.fee_deps) :=
  deposit_lock_dep_deduplicated sampleRollupContext sampleCollector2 sampleDeposits2
    sampleBlock sampleGlobalState [sampleDep 70] sampleRollupCell (sampleDep 51)
    sampleSkeleton2 rfl rfl (by decide) rfl

/-- Witness for C5 on two concrete deposits sharing one type dep. -/
theorem deposit_type_deps_set_union_witness :
    sampleSkeleton2.cell_deps.Nodup ∧
    (∀ td ∈ depositTypeDeps sampleDeposits2, sampleSkeleton2.cell_deps.count td = 1) ∧
    (∀ x ∈ sampleSkeleton2.cell_deps,
        x = sampleDep 51 ∨ x = sampleRollupCell.lock_dep ∨
        (∃ d rest, sampleDeposits2 = d :: rest ∧ x = d.cell.lock_dep) ∨
        (∃ dep ∈ sampleDeposits2, dep.cell.type_dep = some x) ∨
        x ∈ sampleCollector2.fee_deps) :=
  deposit_type_deps_set_union sampleRollupContext sampleCollector2 sampleDeposits2
    sampleBlock sampleGlobalState [sampleDep 70] sampleRollupCell (sampleDep 51)
    sampleSkeleton2 rfl rfl (by decide) rfl

end Godwoken
